import Mathlib

/-!
Shallow embedding of the cookeep-backend recipe-recommendation core
(`src/app.py`) and verification of its specification.

Modelling conventions:
* material names and receipt text are `String`s; Python `set`s of strings
  become `Finset String`; Python lists become `List`s;
* Python float division `len(matched) / len(all_required)` is modelled
  exactly over `ℚ`; `int(ratio * 100)` (truncation of a non-negative
  value) is modelled as `⌊ratio * 100⌋ : ℤ`;
* the duck-typed `required_materials` JSON value (either a flat list of
  strings or a dict with optional `core` / `optional` keys) becomes the
  inductive `RequiredData`;
* a catalog row whose `required_materials` text fails `json.loads` is a
  row whose `required_materials` field is `none` (the `except` branch of
  `recommend_recipes` logs and skips it);
* Python's `list.sort` / `sorted` are stable; they are modelled by
  Mathlib's stable `List.insertionSort` on the same (total, transitive)
  comparison, which produces the identical output list.
-/

namespace Cookeep

/-- The duck-typed shape of a parsed `required_materials` JSON value:
either a flat list (treated entirely as core) or an object with
optional `core` and `optional` keys (`required_data.get('core', [])`,
`required_data.get('optional', [])`). -/
inductive RequiredData where
  | flat (items : List String)
  | obj (core : Option (List String)) (opt : Option (List String))
deriving DecidableEq

/-- `set(required_data.get('core', [])) if isinstance(required_data, dict)
else set(required_data)` (app.py line 115). -/
def required_core : RequiredData → Finset String
  | .flat items => items.toFinset
  | .obj core _ => (core.getD []).toFinset

/-- `set(required_data.get('optional', [])) if isinstance(required_data, dict)
else set()` (app.py line 116). -/
def required_optional : RequiredData → Finset String
  | .flat _ => ∅
  | .obj _ opt => (opt.getD []).toFinset

/-- `calculate_match_score` (app.py lines 113-130). Returns
`(match_ratio, matched, missing)`. -/
def calculate_match_score (required_data : RequiredData)
    (available_materials : List String) : ℚ × Finset String × Finset String :=
  let rc0 := required_core required_data
  let ro0 := required_optional required_data
  let available_set := available_materials.toFinset
  if rc0 = ∅ ∧ ro0 = ∅ then (0, ∅, ∅)
  else
    -- `if not required_core and required_optional: required_core = required_optional; required_optional = set()`
    let rc := if rc0 = ∅ ∧ ro0 ≠ ∅ then ro0 else rc0
    let ro := if rc0 = ∅ ∧ ro0 ≠ ∅ then (∅ : Finset String) else ro0
    let missing_core := rc \ available_set
    if 0 < missing_core.card then
      let all_required := rc ∪ ro
      let matched := all_required ∩ available_set
      let missing := all_required \ available_set
      (0, matched, missing)
    else
      let all_required := rc ∪ ro
      let matched := all_required ∩ available_set
      let missing := all_required \ available_set
      -- `len(matched) / len(all_required)` (exact division; `mkRat m n` is the
      -- rational `m / n`, see `mkRat_eq_div` below)
      let mr := if 0 < all_required.card then mkRat matched.card all_required.card else 0
      (mr, matched, missing)

/-- The effective mandatory set after the reassignment step: `optional`
when the derived `core` is empty, the derived `core` otherwise. -/
def effective_core (required_data : RequiredData) : Finset String :=
  if required_core required_data = ∅ then required_optional required_data
  else required_core required_data

/-- The effective bonus set after the reassignment step. -/
def effective_optional (required_data : RequiredData) : Finset String :=
  if required_core required_data = ∅ then ∅ else required_optional required_data

/-- One row of the in-memory `recipes_df` catalog (table `Recipes`).
`required_materials` holds the parsed JSON value; `none` models a row
whose `required_materials` text fails `json.loads` (the `except` branch
of `recommend_recipes` logs a warning and skips such a row). -/
structure RecipeRow where
  name : String
  required_materials : Option RequiredData
  steps : String
  image_url : String
deriving DecidableEq

/-- One recommendation record built by `recommend_recipes` (app.py lines
147-152). The source field `match_ratio` (the integer percentage
`int(ratio * 100)`) is named `match_percent` here. -/
structure Recommendation where
  name : String
  image_url : String
  match_percent : ℤ
  matched_materials : Finset String
  missing_materials : Finset String
  missing_count : ℕ
  steps : String
deriving DecidableEq

/-- Python `int(q * 100)` for a rational `q`: `int` truncates toward zero;
for `q = q.num / q.den` (`q.den > 0`) the truncation of `q * 100` is
`(100 * q.num).tdiv q.den` (see `int_mul100_eq_floor` below: on the
nonnegative ratios produced here it is the floor of `ratio × 100`). -/
def int_mul100 (q : ℚ) : ℤ :=
  (100 * q.num).tdiv q.den

/-- The loop body of `recommend_recipes` (app.py lines 142-154): parse the
row's requirement (skip on failure), score it, and keep it only when
`ratio > 0`. -/
def scoreRow (standard_materials : List String) (row : RecipeRow) :
    Option Recommendation :=
  match row.required_materials with
  | none => none
  | some required_data_obj =>
    let res := calculate_match_score required_data_obj standard_materials
    if 0 < res.1 then
      some ⟨row.name, row.image_url, int_mul100 res.1, res.2.1, res.2.2,
        res.2.2.card, row.steps⟩
    else none

/-- The sort order of `recommendations.sort(key=lambda x: (x['match_ratio'],
-x['missing_count']), reverse=True)` (app.py line 155): descending integer
percentage, ties broken by ascending missing count. -/
def recLE (a b : Recommendation) : Prop :=
  b.match_percent < a.match_percent ∨
    (a.match_percent = b.match_percent ∧ a.missing_count ≤ b.missing_count)

instance : DecidableRel recLE := fun a b => by
  unfold recLE; infer_instance

instance : IsTotal Recommendation recLE :=
  ⟨fun a b => by unfold recLE; omega⟩

instance : IsTrans Recommendation recLE :=
  ⟨fun a b c hab hbc => by unfold recLE at *; omega⟩

/-- `recommend_recipes` (app.py lines 132-156): score every catalog row,
keep the positive-ratio ones, sort (Python's stable `list.sort`, modelled
by the stable `insertionSort`), truncate to `top_n`. -/
def recommend_recipes (recipes_df : List RecipeRow)
    (standard_materials : List String) (top_n : ℕ) : List Recommendation :=
  (((recipes_df.filterMap (scoreRow standard_materials)).insertionSort
    recLE).take top_n)

/-- One scan step of `material_regex.findall`: the alternation built from
`sorted_keys` tries the keys in list order at the current position and
takes the first (hence, keys being sorted by descending length, a
longest) literal alternative that matches there. -/
def findKeyAt (keys : List (List Char)) (s : List Char) : Option (List Char) :=
  keys.find? (fun k => k.isPrefixOf s)

/-- `material_regex.findall(line)`: left-to-right non-overlapping scan.
At each position the first alternative (in `keys` order) matching there
is emitted and the scan resumes after it; with no match the scan advances
one character (an empty match also advances one, as `re.findall` does).
`fuel` is an upper bound on the number of steps; each step consumes at
least one character, so `s.length` suffices. -/
def scanGo (keys : List (List Char)) : ℕ → List Char → List (List Char)
  | _, [] =>
    match findKeyAt keys [] with
    | some k => [k]
    | none => []
  | 0, _ :: _ => []
  | fuel + 1, c :: cs =>
    match findKeyAt keys (c :: cs) with
    | some k => k :: scanGo keys fuel (cs.drop (k.length - 1))
    | none => scanGo keys fuel cs

/-- `material_regex.findall(line)` on a whole line. -/
def scanLine (keys : List (List Char)) (s : List Char) : List (List Char) :=
  scanGo keys s.length s

/-- The comparison of `sorted(material_map.keys(), key=len, reverse=True)`:
`a` may come before `b` when `a` is at least as long. -/
def lenGE (a b : String) : Prop :=
  b.length ≤ a.length

instance : DecidableRel lenGE := fun a b => by
  unfold lenGE; infer_instance

instance : IsTotal String lenGE :=
  ⟨fun a b => by unfold lenGE; omega⟩

instance : IsTrans String lenGE :=
  ⟨fun a b c hab hbc => by unfold lenGE at *; omega⟩

/-- The keys of `material_regex` (app.py lines 66-68):
`sorted(material_map.keys(), key=len, reverse=True)` — a stable sort by
descending length, modelled by the stable `insertionSort`. -/
def sorted_keys (material_map : List (String × String)) : List String :=
  (material_map.map Prod.fst).insertionSort lenGE

/-- Python's `str.strip()` on a list of characters: drop whitespace from
both ends. -/
def pyStrip (s : List Char) : List Char :=
  ((s.dropWhile Char.isWhitespace).reverse.dropWhile Char.isWhitespace).reverse

/-- Python's `str.split('\n')`: split at every newline (empty pieces
kept). -/
def splitNl : List Char → List (List Char)
  | [] => [[]]
  | c :: cs =>
    if c = '\n' then [] :: splitNl cs
    else
      match splitNl cs with
      | [] => [[c]]
      | l :: ls => (c :: l) :: ls

/-- `material_map.get(matched_key)`: dict lookup. The dict's
`receipt_item` keys are UNIQUE in the DB, so first-match lookup over the
association list agrees with it. -/
def dictGet (material_map : List (String × String)) (k : List Char) :
    Option String :=
  (material_map.find? (fun p => p.1.data == k)).map Prod.snd

/-- The normalization loop of `process_receipt_to_recommend` (app.py lines
169-178): strip each line, skip blank ones, collect the canonical
material of every key occurrence. The Python `set` with its final
`list(...)` enumeration is modelled as a duplicate-free list in
first-insertion order (iteration order of a Python set is arbitrary and
irrelevant downstream, where the list is turned back into a set). -/
def normalize_lines (material_map : List (String × String))
    (receipt_lines : List String) : List String :=
  let keys := (sorted_keys material_map).map String.data
  receipt_lines.foldl (fun acc line =>
    let cleaned_line := pyStrip line.data
    if cleaned_line = [] then acc
    else
      (scanLine keys cleaned_line).foldl (fun acc2 mk =>
        match dictGet material_map mk with
        | some sm => if sm ∈ acc2 then acc2 else acc2 ++ [sm]
        | none => acc2) acc) []

/-- `process_receipt_to_recommend` (app.py lines 158-181), with the loaded
global state (`material_map`, `recipes_df`) passed explicitly. -/
def process_receipt_to_recommend (material_map : List (String × String))
    (recipes_df : List RecipeRow) (receipt_lines : List String) :
    List Recommendation :=
  recommend_recipes recipes_df (normalize_lines material_map receipt_lines) 5

/-- A response of the `/recommend` route: either
`jsonify({'status': 'error', 'message': ...}), code` or
`jsonify({'status': 'success', 'ocr_lines': ..., 'recommendations': ...})`. -/
inductive ApiResponse where
  | error (message : String) (code : ℕ)
  | success (ocr_lines : List String) (recommendations : List Recommendation)
deriving DecidableEq

/-- The `/recommend` handler `recommend_from_image` (app.py lines 249-304),
with its collaborators passed explicitly: `visionOk` is whether the Vision
client initialized, `image_file` the uploaded file's name (if any),
`ocr_error` the Vision API error message (if any), `full_text` the OCR
text, and the loaded catalog state. -/
def recommend_from_image (visionOk : Bool) (image_file : Option String)
    (ocr_error : Option String) (full_text : String)
    (material_map : List (String × String)) (recipes_df : List RecipeRow) :
    ApiResponse :=
  if visionOk = false then
    .error "서버의 Google Vision API 인증에 실패했습니다. (키 파일 확인 필요)" 400
  else
    match image_file with
    | none => .error "이미지 파일이 없습니다." 400
    | some filename =>
      if filename = "" then .error "선택된 파일이 없습니다." 400
      else
        match ocr_error with
        | some msg => .error ("서버 내부 처리 오류: Google Vision API 오류: " ++ msg) 500
        | none =>
          -- `[line.strip() for line in full_text.split('\n') if line.strip()]`
          let receipt_lines :=
            (((splitNl full_text.data).map pyStrip).filter (fun l => l ≠ [])).map
              List.asString
          if receipt_lines = [] then .error "Google OCR 결과가 비어있습니다." 400
          else .success receipt_lines
            (process_receipt_to_recommend material_map recipes_df receipt_lines)

/-- A 100-item bonus-material list (`b0` … `b99`), used to exhibit a
recipe whose requirement set exceeds 100 materials. -/
def big_optional : List String :=
  (List.range 100).map (fun n => "b" ++ Nat.repr n)

/-! ## Helper lemmas -/

/-- `mkRat m n` is the exact rational division `m / n`. -/
theorem mkRat_cast_eq_div (m n : ℕ) : mkRat (m : ℤ) n = (m : ℚ) / (n : ℚ) := by
  rw [Rat.mkRat_eq_divInt, Rat.divInt_eq_div]
  push_cast
  ring

/-- On nonnegative rationals, Python's truncating `int(q * 100)` is the
floor of `q * 100`. -/
theorem int_mul100_eq_floor (q : ℚ) (h : 0 ≤ q) : int_mul100 q = ⌊q * 100⌋ := by
  have hnum : 0 ≤ q.num := Rat.num_nonneg.mpr h
  have h100 : (0 : ℤ) ≤ 100 * q.num := by positivity
  have hden : (0 : ℤ) ≤ (q.den : ℤ) := Int.natCast_nonneg _
  have hq : q * 100 = ((100 * q.num : ℤ) : ℚ) / (q.den : ℚ) := by
    conv_lhs => rw [← Rat.num_div_den q]
    push_cast
    ring
  rw [int_mul100, Int.tdiv_eq_ediv h100 hden, hq, Rat.floor_intCast_div_natCast]

/-- The reassignment step preserves the union of the two requirement
sets. -/
theorem effective_union (d : RequiredData) :
    effective_core d ∪ effective_optional d =
      required_core d ∪ required_optional d := by
  unfold effective_core effective_optional
  split_ifs with h
  · simp [h]
  · rfl

/-- Under the first guard, the reassignment step produces exactly
`effective_core`. -/
theorem reassigned_core (d : RequiredData)
    (h0 : ¬ (required_core d = ∅ ∧ required_optional d = ∅)) :
    (if required_core d = ∅ ∧ required_optional d ≠ ∅ then required_optional d
     else required_core d) = effective_core d := by
  unfold effective_core
  by_cases hc : required_core d = ∅
  · have hro : required_optional d ≠ ∅ := fun h => h0 ⟨hc, h⟩
    simp [hc, hro]
  · simp [hc]

/-- Under the first guard, the reassignment step produces exactly
`effective_optional`. -/
theorem reassigned_opt (d : RequiredData)
    (h0 : ¬ (required_core d = ∅ ∧ required_optional d = ∅)) :
    (if required_core d = ∅ ∧ required_optional d ≠ ∅ then (∅ : Finset String)
     else required_optional d) = effective_optional d := by
  unfold effective_optional
  by_cases hc : required_core d = ∅
  · have hro : required_optional d ≠ ∅ := fun h => h0 ⟨hc, h⟩
    simp [hc, hro]
  · simp [hc]

/-- Under the first guard, the effective mandatory set is non-empty. -/
theorem effective_core_nonempty (d : RequiredData)
    (h0 : ¬ (required_core d = ∅ ∧ required_optional d = ∅)) :
    (effective_core d).Nonempty := by
  unfold effective_core
  by_cases hc : required_core d = ∅
  · have hro : required_optional d ≠ ∅ := fun h => h0 ⟨hc, h⟩
    simp only [hc, if_true]
    exact Finset.nonempty_iff_ne_empty.mpr hro
  · simp only [hc, if_false]
    exact Finset.nonempty_iff_ne_empty.mpr hc

/-- The no-requirement branch of `calculate_match_score`. -/
theorem calc_no_req (d : RequiredData) (avail : List String)
    (h : required_core d = ∅) (h' : required_optional d = ∅) :
    calculate_match_score d avail = (0, ∅, ∅) := by
  unfold calculate_match_score
  simp [h, h']

/-- The two running branches of `calculate_match_score`: matched and
missing are intersection and difference of the full requirement set with
the available set, and the ratio is `0` on a missing mandatory material
and the exact fraction otherwise. -/
theorem calc_run (d : RequiredData) (avail : List String)
    (h0 : ¬ (required_core d = ∅ ∧ required_optional d = ∅)) :
    calculate_match_score d avail =
      (if effective_core d ⊆ avail.toFinset then
          mkRat (((required_core d ∪ required_optional d) ∩ avail.toFinset).card)
            ((required_core d ∪ required_optional d).card)
        else 0,
        (required_core d ∪ required_optional d) ∩ avail.toFinset,
        (required_core d ∪ required_optional d) \ avail.toFinset) := by
  unfold calculate_match_score
  simp only [if_neg h0]
  rw [reassigned_core d h0, reassigned_opt d h0, effective_union d]
  by_cases hsub : effective_core d ⊆ avail.toFinset
  · have hdiff : effective_core d \ avail.toFinset = ∅ :=
      Finset.sdiff_eq_empty_iff_subset.mpr hsub
    have hcard : ¬ 0 < (effective_core d \ avail.toFinset).card := by
      rw [hdiff]; simp
    have hpos : 0 < (required_core d ∪ required_optional d).card := by
      refine Finset.card_pos.mpr ?_
      refine ((effective_core_nonempty d h0).mono ?_)
      rw [← effective_union d]
      exact Finset.subset_union_left
    simp [hcard, hsub, hpos]
  · have hne : (effective_core d \ avail.toFinset).Nonempty := by
      rw [Finset.nonempty_iff_ne_empty]
      exact fun h => hsub (Finset.sdiff_eq_empty_iff_subset.mp h)
    have hcard : 0 < (effective_core d \ avail.toFinset).card :=
      Finset.card_pos.mpr hne
    simp [hcard, hsub]

/-- The ratio is never negative. -/
theorem ratio_nonneg (d : RequiredData) (avail : List String) :
    0 ≤ (calculate_match_score d avail).1 := by
  by_cases h0 : required_core d = ∅ ∧ required_optional d = ∅
  · rw [calc_no_req d avail h0.1 h0.2]
  · rw [calc_run d avail h0]
    dsimp only
    split_ifs with h
    · rw [mkRat_cast_eq_div]
      positivity
    · exact le_refl 0

/-- What `scoreRow` returning a record means: a parsed requirement with a
positive ratio, packaged into the result record. -/
theorem scoreRow_eq_some (avail : List String) (row : RecipeRow)
    (r : Recommendation) (h : scoreRow avail row = some r) :
    ∃ d, row.required_materials = some d ∧
      0 < (calculate_match_score d avail).1 ∧
      r = ⟨row.name, row.image_url,
            int_mul100 (calculate_match_score d avail).1,
            (calculate_match_score d avail).2.1,
            (calculate_match_score d avail).2.2,
            (calculate_match_score d avail).2.2.card, row.steps⟩ := by
  unfold scoreRow at h
  cases hd : row.required_materials with
  | none => rw [hd] at h; exact absurd h (by simp)
  | some d =>
    rw [hd] at h
    dsimp only at h
    by_cases hpos : 0 < (calculate_match_score d avail).1
    · rw [if_pos hpos] at h
      exact ⟨d, rfl, hpos, (Option.some_injective _ h).symm⟩
    · rw [if_neg hpos] at h
      exact absurd h (by simp)

/-- Every entry of the recommendation list comes from scoring some catalog
row. -/
theorem mem_recommend (recipes_df : List RecipeRow)
    (standard_materials : List String) (top_n : ℕ) (r : Recommendation)
    (h : r ∈ recommend_recipes recipes_df standard_materials top_n) :
    ∃ row ∈ recipes_df, scoreRow standard_materials row = some r := by
  unfold recommend_recipes at h
  have h1 : r ∈ (recipes_df.filterMap (scoreRow standard_materials)).insertionSort recLE :=
    List.mem_of_mem_take h
  rw [List.mem_insertionSort] at h1
  rw [List.mem_filterMap] at h1
  obtain ⟨row, hrow, hs⟩ := h1
  exact ⟨row, hrow, hs⟩

/-- Against an empty available set every specification scores ratio `0`. -/
theorem calc_empty_available (d : RequiredData) :
    (calculate_match_score d []).1 = 0 := by
  by_cases h0 : required_core d = ∅ ∧ required_optional d = ∅
  · rw [calc_no_req d [] h0.1 h0.2]
  · rw [calc_run d [] h0]
    dsimp only
    rw [if_neg]
    intro hsub
    obtain ⟨x, hx⟩ := effective_core_nonempty d h0
    have := hsub hx
    simp at this

/-- Against an empty available set every score is `0`, so the engine
returns no recommendation. -/
theorem recommend_empty_available (recipes_df : List RecipeRow) (top_n : ℕ) :
    recommend_recipes recipes_df [] top_n = [] := by
  unfold recommend_recipes
  have hnone : ∀ row ∈ recipes_df, scoreRow [] row = none := by
    intro row _
    unfold scoreRow
    cases hd : row.required_materials with
    | none => rfl
    | some d =>
      dsimp only
      rw [if_neg]
      rw [calc_empty_available d]
      exact lt_irrefl 0
  rw [List.filterMap_eq_nil_iff.mpr hnone]
  simp

/-- `find?` over a list sorted by descending length returns a match of
maximal length: any other element satisfying the predicate is no longer. -/
theorem find_sorted_longest (l : List String) (hp : l.Pairwise lenGE)
    (s k : List Char)
    (h : (l.map String.data).find? (fun t => t.isPrefixOf s) = some k) :
    ∀ k' ∈ l, k'.data.isPrefixOf s = true → k'.data.length ≤ k.length := by
  induction l with
  | nil => simp at h
  | cons a t ih =>
    rw [List.pairwise_cons] at hp
    intro k' hk' hpre
    rw [List.map_cons] at h
    cases ha : (String.data a).isPrefixOf s with
    | true =>
      simp only [List.find?_cons, ha] at h
      have hk : k = a.data := (Option.some_injective _ h).symm
      subst hk
      rcases List.mem_cons.mp hk' with rfl | hmem
      · exact le_refl _
      · exact hp.1 k' hmem
    | false =>
      simp only [List.find?_cons, ha] at h
      rcases List.mem_cons.mp hk' with rfl | hmem
      · rw [hpre] at ha; exact absurd ha (by decide)
      · exact ih hp.2 h k' hmem hpre

/-- Lines that strip to nothing contribute no standard material. -/
theorem normalize_lines_blank (material_map : List (String × String))
    (receipt_lines : List String)
    (h : ∀ l ∈ receipt_lines, pyStrip l.data = []) :
    normalize_lines material_map receipt_lines = [] := by
  unfold normalize_lines
  have key : ∀ (ls : List String), (∀ l ∈ ls, pyStrip l.data = []) →
      ∀ acc : List String,
        ls.foldl (fun acc line =>
          let cleaned_line := pyStrip line.data
          if cleaned_line = [] then acc
          else
            (scanLine ((sorted_keys material_map).map String.data)
                cleaned_line).foldl (fun acc2 mk =>
              match dictGet material_map mk with
              | some sm => if sm ∈ acc2 then acc2 else acc2 ++ [sm]
              | none => acc2) acc) acc = acc := by
    intro ls
    induction ls with
    | nil => intro _ acc; rfl
    | cons a t ih =>
      intro hall acc
      rw [List.foldl_cons]
      have ha : pyStrip a.data = [] := hall a (List.mem_cons_self a t)
      simp only [ha, if_pos]
      exact ih (fun l hl => hall l (List.mem_cons_of_mem a hl)) acc
  exact key receipt_lines h []

/-! ## Claims -/

/-- C1, counterexample: for the specification `{core: ["a","b"]}` and the
available set `{"a"}`, the core material `"b"` is absent, yet the matched
set returned by `calculate_match_score` is `{"a"}`, not empty. -/
theorem C1_counterexample :
    "b" ∈ required_core (RequiredData.obj (some ["a", "b"]) none) ∧
    "b" ∉ (["a"] : List String).toFinset ∧
    (calculate_match_score (RequiredData.obj (some ["a", "b"]) none) ["a"]).2.1 ≠
      (∅ : Finset String) := by
  decide

/-- C1 (amended): if some core material is absent from the available set,
`calculate_match_score` returns ratio exactly `0`, a matched set equal to
`(core ∪ optional) ∩ available`, and a missing set equal to
`(core ∪ optional)` minus the available set. -/
theorem C1_amended (d : RequiredData) (avail : List String) (m : String)
    (hm : m ∈ required_core d) (hna : m ∉ avail.toFinset) :
    calculate_match_score d avail =
      (0, (required_core d ∪ required_optional d) ∩ avail.toFinset,
        (required_core d ∪ required_optional d) \ avail.toFinset) := by
  have hc : required_core d ≠ ∅ := by
    intro h; rw [h] at hm; exact absurd hm (Finset.not_mem_empty m)
  have h0 : ¬ (required_core d = ∅ ∧ required_optional d = ∅) :=
    fun h => hc h.1
  have heff : effective_core d = required_core d := by
    unfold effective_core; simp [hc]
  have hsub : ¬ effective_core d ⊆ avail.toFinset := by
    rw [heff]; exact fun hs => hna (hs hm)
  rw [calc_run d avail h0]
  simp [hsub]

/-- C1, witness: the amended statement at the counterexample's input. -/
theorem C1_witness :
    calculate_match_score (RequiredData.obj (some ["a", "b"]) none) ["a"] =
      (0,
        (required_core (RequiredData.obj (some ["a", "b"]) none) ∪
          required_optional (RequiredData.obj (some ["a", "b"]) none)) ∩
          (["a"] : List String).toFinset,
        (required_core (RequiredData.obj (some ["a", "b"]) none) ∪
          required_optional (RequiredData.obj (some ["a", "b"]) none)) \
          (["a"] : List String).toFinset) :=
  C1_amended (RequiredData.obj (some ["a", "b"]) none) ["a"] "b"
    (by decide) (by decide)

/-- C2: the ratio is `0` iff the derived core and optional sets are both
empty or some effective-core material is absent from the available set;
otherwise it equals `|(core ∪ optional) ∩ available| / |core ∪ optional|`. -/
theorem C2_ratio_iff (d : RequiredData) (avail : List String) :
    ((calculate_match_score d avail).1 = 0 ↔
      ((required_core d = ∅ ∧ required_optional d = ∅) ∨
        ∃ m ∈ effective_core d, m ∉ avail.toFinset)) ∧
    ((calculate_match_score d avail).1 ≠ 0 →
      (calculate_match_score d avail).1 =
        (((required_core d ∪ required_optional d) ∩ avail.toFinset).card : ℚ) /
          ((required_core d ∪ required_optional d).card : ℚ)) := by
  by_cases h0 : required_core d = ∅ ∧ required_optional d = ∅
  · rw [calc_no_req d avail h0.1 h0.2]
    exact ⟨by simp [h0], fun h => absurd rfl h⟩
  · rw [calc_run d avail h0]
    dsimp only
    by_cases hsub : effective_core d ⊆ avail.toFinset
    · rw [if_pos hsub]
      have hU : effective_core d ⊆ required_core d ∪ required_optional d := by
        rw [← effective_union d]; exact Finset.subset_union_left
      have hnum : 0 <
          ((required_core d ∪ required_optional d) ∩ avail.toFinset).card := by
        refine Finset.card_pos.mpr ?_
        obtain ⟨x, hx⟩ := effective_core_nonempty d h0
        exact ⟨x, Finset.mem_inter.mpr ⟨hU hx, hsub hx⟩⟩
      have hden : 0 < (required_core d ∪ required_optional d).card :=
        Finset.card_pos.mpr ((effective_core_nonempty d h0).mono hU)
      have hne : mkRat
          (((required_core d ∪ required_optional d) ∩ avail.toFinset).card)
          ((required_core d ∪ required_optional d).card) ≠ 0 := by
        rw [mkRat_cast_eq_div]
        refine div_ne_zero ?_ ?_
        · exact Nat.cast_ne_zero.mpr (Nat.pos_iff_ne_zero.mp hnum)
        · exact Nat.cast_ne_zero.mpr (Nat.pos_iff_ne_zero.mp hden)
      constructor
      · constructor
        · intro h; exact absurd h hne
        · rintro (h | ⟨m, hm, hma⟩)
          · exact absurd h h0
          · exact absurd (hsub hm) hma
      · intro _
        rw [mkRat_cast_eq_div]
    · rw [if_neg hsub]
      refine ⟨⟨fun _ => Or.inr ?_, fun _ => rfl⟩, fun h => absurd rfl h⟩
      obtain ⟨m, hm, hma⟩ := Finset.not_subset.mp hsub
      exact ⟨m, hm, hma⟩

/-- C2, witness: the spec's scenario — core `{김치, 돼지고기}`, optional
`{두부}`, available `{김치, 돼지고기}` — has ratio `2/3 ≠ 0`, equal to the
stated fraction. -/
theorem C2_witness :
    (calculate_match_score
        (RequiredData.obj (some ["김치", "돼지고기"]) (some ["두부"]))
        ["김치", "돼지고기"]).1 ≠ 0 ∧
    (calculate_match_score
        (RequiredData.obj (some ["김치", "돼지고기"]) (some ["두부"]))
        ["김치", "돼지고기"]).1 =
      (((required_core (RequiredData.obj (some ["김치", "돼지고기"]) (some ["두부"])) ∪
          required_optional (RequiredData.obj (some ["김치", "돼지고기"]) (some ["두부"]))) ∩
          (["김치", "돼지고기"] : List String).toFinset).card : ℚ) /
        (((required_core (RequiredData.obj (some ["김치", "돼지고기"]) (some ["두부"])) ∪
          required_optional (RequiredData.obj (some ["김치", "돼지고기"]) (some ["두부"]))).card) : ℚ) :=
  ⟨by decide,
    (C2_ratio_iff (RequiredData.obj (some ["김치", "돼지고기"]) (some ["두부"]))
      ["김치", "돼지고기"]).2 (by decide)⟩

/-- C5: when the derived core set is empty and the derived optional set is
non-empty, the optional set is evaluated as the mandatory set: any absent
optional material forces ratio `0`, the matched and missing sets are taken
against the optional set as the full requirement set, and when all of it is
available the ratio is its exact fraction. -/
theorem C5_optional_as_mandatory (d : RequiredData) (avail : List String)
    (hc : required_core d = ∅) (ho : required_optional d ≠ ∅) :
    ((∃ m ∈ required_optional d, m ∉ avail.toFinset) →
      (calculate_match_score d avail).1 = 0) ∧
    (calculate_match_score d avail).2.1 = required_optional d ∩ avail.toFinset ∧
    (calculate_match_score d avail).2.2 = required_optional d \ avail.toFinset ∧
    (required_optional d ⊆ avail.toFinset →
      (calculate_match_score d avail).1 =
        ((required_optional d ∩ avail.toFinset).card : ℚ) /
          ((required_optional d).card : ℚ)) := by
  have h0 : ¬ (required_core d = ∅ ∧ required_optional d = ∅) :=
    fun h => ho h.2
  have heff : effective_core d = required_optional d := by
    unfold effective_core; simp [hc]
  have hU : required_core d ∪ required_optional d = required_optional d := by
    rw [hc, Finset.empty_union]
  rw [calc_run d avail h0, heff, hU]
  dsimp only
  refine ⟨?_, rfl, rfl, ?_⟩
  · rintro ⟨m, hm, hma⟩
    rw [if_neg (fun hs => hma (hs hm))]
  · intro hsub
    rw [if_pos hsub, mkRat_cast_eq_div]

/-- C5, witness: optional `{x, y}` with empty core and available `{x}` is
disqualified (ratio `0`), with matched `{x}` and missing `{y}`. -/
theorem C5_witness :
    (calculate_match_score (RequiredData.obj none (some ["x", "y"])) ["x"]).1 = 0 ∧
    (calculate_match_score (RequiredData.obj none (some ["x", "y"])) ["x"]).2.1 =
      required_optional (RequiredData.obj none (some ["x", "y"])) ∩
        (["x"] : List String).toFinset :=
  ⟨(C5_optional_as_mandatory (RequiredData.obj none (some ["x", "y"])) ["x"]
      (by decide) (by decide)).1 ⟨"y", by decide, by decide⟩,
    (C5_optional_as_mandatory (RequiredData.obj none (some ["x", "y"])) ["x"]
      (by decide) (by decide)).2.1⟩

/-- C9: matched and missing are disjoint, matched lies inside the available
set, missing is disjoint from it, their union is the derived
`core ∪ optional`, and all of them are empty when core and optional are
both empty. -/
theorem C9_invariants (d : RequiredData) (avail : List String) :
    (calculate_match_score d avail).2.1 ∩ (calculate_match_score d avail).2.2 = ∅ ∧
    (calculate_match_score d avail).2.1 ⊆ avail.toFinset ∧
    (calculate_match_score d avail).2.2 ∩ avail.toFinset = ∅ ∧
    (calculate_match_score d avail).2.1 ∪ (calculate_match_score d avail).2.2 =
      required_core d ∪ required_optional d ∧
    ((required_core d = ∅ ∧ required_optional d = ∅) →
      (calculate_match_score d avail).2.1 = ∅ ∧
      (calculate_match_score d avail).2.2 = ∅ ∧
      required_core d ∪ required_optional d = ∅) := by
  by_cases h0 : required_core d = ∅ ∧ required_optional d = ∅
  · rw [calc_no_req d avail h0.1 h0.2]
    refine ⟨by simp, by simp, by simp, by simp [h0.1, h0.2], fun _ => ⟨rfl, rfl, by simp [h0.1, h0.2]⟩⟩
  · rw [calc_run d avail h0]
    dsimp only
    refine ⟨?_, Finset.inter_subset_right, Finset.sdiff_inter_self _ _, ?_, fun h => absurd h h0⟩
    · ext x
      simp only [Finset.mem_inter, Finset.mem_sdiff, Finset.not_mem_empty, iff_false]
      tauto
    · ext x
      simp only [Finset.mem_union, Finset.mem_inter, Finset.mem_sdiff]
      tauto

/-- C9, witness: the final implication at a no-requirement specification. -/
theorem C9_witness :
    (calculate_match_score (RequiredData.obj none none) ["a"]).2.1 = ∅ ∧
    (calculate_match_score (RequiredData.obj none none) ["a"]).2.2 = ∅ ∧
    required_core (RequiredData.obj none none) ∪
      required_optional (RequiredData.obj none none) = ∅ :=
  (C9_invariants (RequiredData.obj none none) ["a"]).2.2.2.2 (by decide)

/-- C3: `recommend_recipes` returns at most `top_n` entries, ordered by
descending integer percentage (the floor of `ratio × 100`) with ties broken
by ascending missing count, and every returned entry comes from a catalog
row whose parsed requirement scored a ratio strictly above `0`. -/
theorem C3_recommend_contract (recipes_df : List RecipeRow)
    (available : List String) (top_n : ℕ) :
    (recommend_recipes recipes_df available top_n).length ≤ top_n ∧
    (recommend_recipes recipes_df available top_n).Pairwise (fun a b =>
      Recommendation.match_percent b < Recommendation.match_percent a ∨
        (Recommendation.match_percent a = Recommendation.match_percent b ∧
          Recommendation.missing_count a ≤ Recommendation.missing_count b)) ∧
    ∀ r ∈ recommend_recipes recipes_df available top_n,
      ∃ row ∈ recipes_df, ∃ d, row.required_materials = some d ∧
        0 < (calculate_match_score d available).1 ∧
        scoreRow available row = some r ∧
        Recommendation.match_percent r =
          ⌊(calculate_match_score d available).1 * 100⌋ := by
  refine ⟨?_, ?_, ?_⟩
  · exact List.length_take_le top_n _
  · have hs : ((recipes_df.filterMap (scoreRow available)).insertionSort
        recLE).Pairwise recLE :=
      List.sorted_insertionSort recLE _
    exact List.Pairwise.sublist (List.take_sublist top_n _) hs
  · intro r hr
    obtain ⟨row, hrow, hscore⟩ :=
      mem_recommend recipes_df available top_n r hr
    obtain ⟨d, hd, hpos, hr_eq⟩ := scoreRow_eq_some available row r hscore
    refine ⟨row, hrow, d, hd, hpos, hscore, ?_⟩
    rw [hr_eq]
    exact int_mul100_eq_floor _ (ratio_nonneg d available)

/-- C3, witness: the contract's membership clause at a concrete two-recipe
catalog. -/
theorem C3_witness :
    ∃ row ∈ [(⟨"R1", some (RequiredData.obj (some ["a"]) (some ["b"])), "s", "u"⟩ : RecipeRow),
        ⟨"R2", some (RequiredData.flat ["a"]), "s", "u"⟩],
      ∃ d, RecipeRow.required_materials row = some d ∧
        0 < (calculate_match_score d ["a"]).1 ∧
        scoreRow ["a"] row = some ⟨"R2", "u", 100, {"a"}, ∅, 0, "s"⟩ ∧
        Recommendation.match_percent (⟨"R2", "u", 100, {"a"}, ∅, 0, "s"⟩ : Recommendation) =
          ⌊(calculate_match_score d ["a"]).1 * 100⌋ :=
  (C3_recommend_contract
      [⟨"R1", some (RequiredData.obj (some ["a"]) (some ["b"])), "s", "u"⟩,
        ⟨"R2", some (RequiredData.flat ["a"]), "s", "u"⟩] ["a"] 5).2.2
    ⟨"R2", "u", 100, {"a"}, ∅, 0, "s"⟩ (by decide)

/-- C6: against an empty available set the engine returns the empty list,
for every catalog and every `top_n` — an ordinary value, not an error —
because no specification attains a ratio above `0` there. -/
theorem C6_empty_available (recipes_df : List RecipeRow) (top_n : ℕ) :
    recommend_recipes recipes_df [] top_n = [] ∧
    ∀ d : RequiredData, ¬ 0 < (calculate_match_score d []).1 :=
  ⟨recommend_empty_available recipes_df top_n,
    fun d => by rw [calc_empty_available d]; exact lt_irrefl 0⟩

/-- C8: a row whose required-materials specification fails to parse is
skipped, and the remaining catalog is scored exactly as if the row were
absent — the batch never aborts. -/
theorem C8_skip_malformed (df1 df2 : List RecipeRow) (bad : RecipeRow)
    (available : List String) (top_n : ℕ)
    (hbad : bad.required_materials = none) :
    recommend_recipes (df1 ++ bad :: df2) available top_n =
      recommend_recipes (df1 ++ df2) available top_n := by
  unfold recommend_recipes
  have hnone : scoreRow available bad = none := by
    unfold scoreRow; rw [hbad]
  rw [List.filterMap_append, List.filterMap_append, List.filterMap_cons, hnone]

/-- C8, witness: the skip equation at a concrete catalog with one
unparseable row in the middle. -/
theorem C8_witness :
    recommend_recipes
        [⟨"R1", some (RequiredData.obj (some ["a"]) (some ["b"])), "s", "u"⟩,
          ⟨"bad", none, "s", "u"⟩,
          ⟨"R2", some (RequiredData.flat ["a"]), "s", "u"⟩] ["a"] 5 =
      recommend_recipes
        [⟨"R1", some (RequiredData.obj (some ["a"]) (some ["b"])), "s", "u"⟩,
          ⟨"R2", some (RequiredData.flat ["a"]), "s", "u"⟩] ["a"] 5 :=
  C8_skip_malformed
    [⟨"R1", some (RequiredData.obj (some ["a"]) (some ["b"])), "s", "u"⟩]
    [⟨"R2", some (RequiredData.flat ["a"]), "s", "u"⟩]
    ⟨"bad", none, "s", "u"⟩ ["a"] 5 (by decide)

/-- C4: the matcher tries the mapping keys in descending length order, so
whenever it selects a key at a position, every mapping key matching at that
same position is no longer than the selected one; in particular, with keys
`삼겹 → pork` and `냉동삼겹살 → frozen_pork`, the line `냉동삼겹살 1개`
normalizes to `{frozen_pork}`, not `{pork}`. -/
theorem C4_longest_match :
    (∀ (material_map : List (String × String)) (s k : List Char),
        findKeyAt ((sorted_keys material_map).map String.data) s = some k →
        ∀ k' ∈ material_map.map Prod.fst,
          (String.data k').isPrefixOf s = true →
            (String.data k').length ≤ k.length) ∧
    normalize_lines [("삼겹", "pork"), ("냉동삼겹살", "frozen_pork")]
      ["냉동삼겹살 1개"] = ["frozen_pork"] := by
  constructor
  · intro m s k h k' hk' hpre
    have hp : (sorted_keys m).Pairwise lenGE :=
      List.sorted_insertionSort lenGE (m.map Prod.fst)
    have hmem : k' ∈ sorted_keys m := by
      unfold sorted_keys
      rw [List.mem_insertionSort]
      exact hk'
    exact find_sorted_longest (sorted_keys m) hp s k h k' hmem hpre
  · decide

/-- C4, witness: with the overlapping keys `삼` and `삼겹`, the matcher
selects `삼겹` on the line `삼겹살`, and the shorter matching key `삼` is
indeed no longer than it. -/
theorem C4_witness :
    (String.data "삼").length ≤ (String.data "삼겹").length :=
  C4_longest_match.1 [("삼", "x"), ("삼겹", "y")] (String.data "삼겹살")
    (String.data "삼겹") (by decide) "삼" (by decide) (by decide)

/-- C7, counterexample: a request whose OCR text consists only of blank
lines is answered with the 400 error response `Google OCR 결과가
비어있습니다.`, not with a success response carrying empty lists. -/
theorem C7_counterexample :
    recommend_from_image true (some "receipt.jpg") none " \n \n"
        [("삼겹", "pork")] [⟨"샘플", some (RequiredData.flat ["pork"]), "", ""⟩] =
      ApiResponse.error "Google OCR 결과가 비어있습니다." 400 ∧
    ¬ recommend_from_image true (some "receipt.jpg") none " \n \n"
        [("삼겹", "pork")] [⟨"샘플", some (RequiredData.flat ["pork"]), "", ""⟩] =
      ApiResponse.success [] [] := by
  exact ⟨by decide, by decide⟩

/-- C7 (amended): a recommendation request whose input lines are all empty,
or that carries zero lines, is rejected by the route with the 400 error
response `Google OCR 결과가 비어있습니다.` — not answered with a success
response; the underlying pipeline `process_receipt_to_recommend` does
return an empty recommendation list on such lines. -/
theorem C7_amended :
    (∀ (filename full_text : String) (material_map : List (String × String))
        (recipes_df : List RecipeRow),
      filename ≠ "" →
      (∀ l ∈ splitNl full_text.data, pyStrip l = []) →
      recommend_from_image true (some filename) none full_text material_map
          recipes_df =
        ApiResponse.error "Google OCR 결과가 비어있습니다." 400) ∧
    (∀ (material_map : List (String × String)) (recipes_df : List RecipeRow)
        (receipt_lines : List String),
      (∀ l ∈ receipt_lines, pyStrip l.data = []) →
      process_receipt_to_recommend material_map recipes_df receipt_lines = []) := by
  constructor
  · intro fn t mm df hfn hall
    unfold recommend_from_image
    rw [if_neg (by simp)]
    dsimp only
    rw [if_neg hfn]
    have hlines :
        ((splitNl t.data).map pyStrip).filter (fun l => l ≠ []) = [] := by
      rw [List.filter_eq_nil_iff]
      intro l hl
      rw [List.mem_map] at hl
      obtain ⟨l0, hl0, rfl⟩ := hl
      simp [hall l0 hl0]
    rw [hlines]
    simp
  · intro mm df lines hall
    unfold process_receipt_to_recommend
    rw [normalize_lines_blank mm lines hall]
    exact recommend_empty_available df 5

/-- C7, witness: the amended statement at blank OCR text and at a concrete
list of blank lines. -/
theorem C7_witness :
    recommend_from_image true (some "receipt.jpg") none " \n  "
        [("삼겹", "pork")] [⟨"샘플", some (RequiredData.flat ["pork"]), "", ""⟩] =
      ApiResponse.error "Google OCR 결과가 비어있습니다." 400 ∧
    process_receipt_to_recommend [("삼겹", "pork")]
        [⟨"샘플", some (RequiredData.flat ["pork"]), "", ""⟩] ["", "  "] = [] :=
  ⟨C7_amended.1 "receipt.jpg" " \n  " [("삼겹", "pork")]
      [⟨"샘플", some (RequiredData.flat ["pork"]), "", ""⟩] (by decide) (by decide),
    C7_amended.2 [("삼겹", "pork")]
      [⟨"샘플", some (RequiredData.flat ["pork"]), "", ""⟩] ["", "  "] (by decide)⟩

set_option maxRecDepth 1000000 in
/-- C10: every returned recommendation has all effective-core materials of
its recipe available (so its missing set holds only optional materials);
and the qualification test uses the exact ratio, so a returned entry's
integer percentage can be `0` when the recipe lists more than 100
materials. -/
theorem C10_core_present :
    (∀ (recipes_df : List RecipeRow) (available : List String) (top_n : ℕ)
        (r : Recommendation),
      r ∈ recommend_recipes recipes_df available top_n →
      ∃ row ∈ recipes_df, ∃ d, row.required_materials = some d ∧
        scoreRow available row = some r ∧
        effective_core d ⊆ available.toFinset ∧
        Recommendation.missing_materials r ⊆ effective_optional d) ∧
    (∃ (recipes_df : List RecipeRow) (available : List String) (top_n : ℕ)
        (r : Recommendation),
      r ∈ recommend_recipes recipes_df available top_n ∧
      Recommendation.match_percent r = 0 ∧
      ∃ row ∈ recipes_df, ∃ d, row.required_materials = some d ∧
        100 < (required_core d ∪ required_optional d).card) := by
  constructor
  · intro df avail n r hr
    obtain ⟨row, hrow, hscore⟩ := mem_recommend df avail n r hr
    obtain ⟨d, hd, hpos, hr_eq⟩ := scoreRow_eq_some avail row r hscore
    have h0 : ¬ (required_core d = ∅ ∧ required_optional d = ∅) := by
      intro h
      rw [calc_no_req d avail h.1 h.2] at hpos
      exact lt_irrefl 0 hpos
    have hsub : effective_core d ⊆ avail.toFinset := by
      by_contra hns
      rw [calc_run d avail h0] at hpos
      dsimp only at hpos
      rw [if_neg hns] at hpos
      exact lt_irrefl 0 hpos
    refine ⟨row, hrow, d, hd, hscore, hsub, ?_⟩
    have hmiss : Recommendation.missing_materials r =
        (calculate_match_score d avail).2.2 := by rw [hr_eq]
    rw [hmiss, calc_run d avail h0]
    dsimp only
    intro x hx
    rw [Finset.mem_sdiff, ← effective_union d, Finset.mem_union] at hx
    rcases hx.1 with hxc | hxo
    · exact absurd (hsub hxc) hx.2
    · exact hxo
  · refine ⟨[⟨"R", some (RequiredData.obj (some ["a"]) (some big_optional)), "s", "u"⟩],
      ["a"], 5, ⟨"R", "u", 0, {"a"}, big_optional.toFinset, 100, "s"⟩, ?_, ?_,
      ⟨"R", some (RequiredData.obj (some ["a"]) (some big_optional)), "s", "u"⟩,
      ?_, RequiredData.obj (some ["a"]) (some big_optional), rfl, ?_⟩
    · decide
    · decide
    · simp
    · decide

/-- C10, witness: the core-availability clause at a concrete one-recipe
catalog. -/
theorem C10_witness :
    ∃ row ∈ [(⟨"R2", some (RequiredData.flat ["a"]), "s", "u"⟩ : RecipeRow)],
      ∃ d, RecipeRow.required_materials row = some d ∧
        scoreRow ["a"] row = some ⟨"R2", "u", 100, {"a"}, ∅, 0, "s"⟩ ∧
        effective_core d ⊆ (["a"] : List String).toFinset ∧
        Recommendation.missing_materials
            (⟨"R2", "u", 100, {"a"}, ∅, 0, "s"⟩ : Recommendation) ⊆
          effective_optional d :=
  C10_core_present.1 [⟨"R2", some (RequiredData.flat ["a"]), "s", "u"⟩] ["a"] 5
    ⟨"R2", "u", 100, {"a"}, ∅, 0, "s"⟩ (by decide)

end Cookeep
